import Mathlib

/-!
# Wallet: compliance gate, chain scanner, deposit filter, fee estimator and
transfer executor

A shallow embedding of `internal/risk/checker.go`, `internal/scanner/scanner.go`,
`internal/scanner/deposit_handler.go`, `pkg/gas/suggest.go` and
`internal/transfer/transfer.go`, followed by the properties proved about them.

Conventions of the embedding:

* `common.Address` (a 20-byte array) is a natural number; only equality of
  addresses is ever used by the code.
* `*big.Int` values are `Int` (arbitrary precision, no overflow).
* `uint64` values are `Nat` taken modulo `2 ^ 64` wherever Go wraps.
* A Go `map[K]bool` is a function `K → Bool`: a lookup of an absent key
  yields `false`, which is all the code observes. A Go `map[K]*V` is a
  function `K → Option V`.
* `time.Now().Format("2006-01-02")` is an explicit argument `today`.
* The outcome of every call to the node is an explicit argument (`none`: the
  call returned an error); the calls a function makes are recorded in order.
-/

namespace Wallet

/-- The type `common.Address`. -/
abbrev Address := Nat

/-- Two to the sixty-fourth, the modulus of `uint64` arithmetic. -/
def U64 : Nat := 2 ^ 64

namespace Risk

/-- The type `risk.RiskLevel` with its four constants. -/
inductive RiskLevel where
  | RiskNone
  | RiskLow
  | RiskMedium
  | RiskHigh
  deriving DecidableEq, Repr

/-- The numeric value of a `RiskLevel` constant. -/
def RiskLevel.toNat : RiskLevel → Nat
  | .RiskNone => 0
  | .RiskLow => 1
  | .RiskMedium => 2
  | .RiskHigh => 3

/-- The type `risk.Config`; a nil limit is `none`. -/
structure Config where
  Enabled : Bool
  DailyLimit : Option Int
  SingleLimit : Option Int
  WhitelistAddrs : List String
  BlacklistAddrs : List String
  RequireManualApproval : Bool

/-- The type `risk.DailyAmount`. -/
structure DailyAmount where
  Date : String
  Amount : Int
  deriving DecidableEq, Repr

/-- The data a `CheckResult.Reason` string is formatted from (the formatting
itself, which goes through `big.Float`, is not modelled). -/
inductive Reason where
  | empty
  | fromBlacklisted (addr : Address)
  | toBlacklisted (addr : Address)
  | overSingleLimit (amount limit : Int)
  | overDailyLimit (newTotal limit : Int)
  | manualApproval
  deriving DecidableEq, Repr

/-- The type `risk.CheckResult`. -/
structure CheckResult where
  Passed : Bool
  Reason : Reason
  Risk : RiskLevel
  deriving DecidableEq, Repr

/-- The type `risk.Checker` (the mutex is not part of the sequential state). -/
structure Checker where
  config : Config
  blacklist : Address → Bool
  whitelist : Address → Bool
  dailyAmounts : Address → Option DailyAmount

/-- Map assignment `m[k] = v`. -/
def setKey {β : Type} (m : Address → β) (k : Address) (v : β) : Address → β :=
  fun a => if a = k then v else m a

/-- The loops of `New` that load a list of address strings into a set. -/
def loadAddrs (HexToAddress : String → Address) :
    List String → (Address → Bool) → (Address → Bool)
  | [], m => m
  | s :: rest, m => loadAddrs HexToAddress rest (setKey m (HexToAddress s) true)

/-- The constructor `risk.New`; `common.HexToAddress` is a parameter. -/
def New (HexToAddress : String → Address) (config : Config) : Checker :=
  { config := config
    blacklist := loadAddrs HexToAddress config.BlacklistAddrs (fun _ => false)
    whitelist := loadAddrs HexToAddress config.WhitelistAddrs (fun _ => false)
    dailyAmounts := fun _ => none }

/-- The result `&CheckResult{Passed: true, Risk: RiskNone}`. -/
def passResult : CheckResult :=
  { Passed := true, Reason := .empty, Risk := .RiskNone }

/-- Rule 4 of `Check` (lines 114-141): the daily limit. Returns the state
after the rule and `some r` when the rule returns `r` early. -/
def checkDaily (c : Checker) (today : String) (fromAddr : Address) (amount : Int) :
    Checker × Option CheckResult :=
  match c.config.DailyLimit with
  | none => (c, none)
  | some limit =>
    let fresh : DailyAmount := { Date := today, Amount := 0 }
    let reset : Checker := { c with dailyAmounts := setKey c.dailyAmounts fromAddr (some fresh) }
    let entry : Checker × DailyAmount :=
      match c.dailyAmounts fromAddr with
      | none => (reset, fresh)
      | some d => if d.Date ≠ today then (reset, fresh) else (c, d)
    let c1 := entry.1
    let dailyAmount := entry.2
    let newTotal := dailyAmount.Amount + amount
    if newTotal > limit then
      (c1, some { Passed := false, Reason := .overDailyLimit newTotal limit, Risk := .RiskMedium })
    else
      let updated : DailyAmount := { Date := dailyAmount.Date, Amount := newTotal }
      ({ c1 with dailyAmounts := setKey c1.dailyAmounts fromAddr (some updated) }, none)

/-- Rule 5 of `Check` (lines 143-155) and the final return. The result is
`none` when `SingleLimit` is nil: `big.Int.Div` then dereferences a nil
pointer and the call does not return. `big.Int.Div` is Euclidean division. -/
def checkManual (c : Checker) (amount : Int) : Option CheckResult :=
  if c.config.RequireManualApproval then
    match c.config.SingleLimit with
    | none => none
    | some single =>
      let threshold := Int.ediv single 2
      if amount > threshold then
        some { Passed := false, Reason := .manualApproval, Risk := .RiskLow }
      else some passResult
  else some passResult

/-- The method `Checker.Check`, with the calendar day as an argument. Returns
the checker state after the call and the result (`none`: the call panics). -/
def Check (c : Checker) (today : String) (fromAddr toAddr : Address) (amount : Int) :
    Checker × Option CheckResult :=
  if c.config.Enabled = false then (c, some passResult)
  else if c.whitelist fromAddr || c.whitelist toAddr then (c, some passResult)
  else if c.blacklist fromAddr then
    (c, some { Passed := false, Reason := .fromBlacklisted fromAddr, Risk := .RiskHigh })
  else if c.blacklist toAddr then
    (c, some { Passed := false, Reason := .toBlacklisted toAddr, Risk := .RiskHigh })
  else
    match c.config.SingleLimit with
    | some single =>
      if amount > single then
        (c, some { Passed := false, Reason := .overSingleLimit amount single, Risk := .RiskMedium })
      else
        match checkDaily c today fromAddr amount with
        | (c1, some r) => (c1, some r)
        | (c1, none) => (c1, checkManual c1 amount)
    | none =>
      match checkDaily c today fromAddr amount with
      | (c1, some r) => (c1, some r)
      | (c1, none) => (c1, checkManual c1 amount)

/-- The method `Checker.AddToBlacklist`, on a parsed address. -/
def AddToBlacklist (c : Checker) (addr : Address) : Checker :=
  { c with blacklist := setKey c.blacklist addr true }

/-- The method `Checker.RemoveFromBlacklist`, on a parsed address. -/
def RemoveFromBlacklist (c : Checker) (addr : Address) : Checker :=
  { c with blacklist := setKey c.blacklist addr false }

/-- The method `Checker.AddToWhitelist`, on a parsed address. -/
def AddToWhitelist (c : Checker) (addr : Address) : Checker :=
  { c with whitelist := setKey c.whitelist addr true }

/-- The method `Checker.RemoveFromWhitelist`, on a parsed address. -/
def RemoveFromWhitelist (c : Checker) (addr : Address) : Checker :=
  { c with whitelist := setKey c.whitelist addr false }

/-- The method `Checker.GetDailyAmount`, with the calendar day as an argument. -/
def GetDailyAmount (c : Checker) (today : String) (addr : Address) : Int :=
  match c.dailyAmounts addr with
  | some d => if d.Date = today then d.Amount else 0
  | none => 0

/-- A checker with empty lists and no accumulator entries, used in examples. -/
def emptyChecker (cfg : Config) : Checker :=
  { config := cfg
    blacklist := fun _ => false
    whitelist := fun _ => false
    dailyAmounts := fun _ => none }

/-- A configuration with the given limits and manual-approval flag. -/
def limitsConfig (single daily : Option Int) (manual : Bool) : Config :=
  { Enabled := true
    DailyLimit := daily
    SingleLimit := single
    WhitelistAddrs := []
    BlacklistAddrs := []
    RequireManualApproval := manual }

/-- A checker whose sender `1` has an accumulator entry of 100 stored under
the day before `2024-01-02`. -/
def staleChecker : Checker :=
  { config := limitsConfig (some 200) (some 150) false
    blacklist := fun _ => false
    whitelist := fun _ => false
    dailyAmounts := fun a => if a = 1 then some ⟨"2024-01-01", 100⟩ else none }

/-- A checker in which address `1` is whitelisted and address `2` is both
blacklisted and the sender. -/
def listedChecker : Checker :=
  { config := limitsConfig (some 100) (some 150) true
    blacklist := fun a => decide (a = 2)
    whitelist := fun a => decide (a = 1)
    dailyAmounts := fun _ => none }

end Risk

namespace Scan

/-- Go `uint64` subtraction `a - b`, which wraps around below zero. -/
def u64sub (a b : Nat) : Nat := (a + (U64 - b % U64)) % U64

/-- Go `uint64` addition `a + b`, which wraps around at `2 ^ 64`. -/
def u64add (a b : Nat) : Nat := (a + b) % U64

/-- Go conversion `uint64(i)` of a signed `int`: the value modulo `2 ^ 64`. -/
def u64ofInt (i : Int) : Nat := (i % (U64 : Int)).toNat

/-- The fields of `scanner.Scanner` that `Start` reads: `startBlock` and
`confirmBlocks` are `uint64`, `batchSize` is a signed `int`. -/
structure Scanner where
  startBlock : Nat
  confirmBlocks : Nat
  batchSize : Int

/-- What one ticker event of `Start` does: the heights passed to `scanBlock`
in call order, the heights whose `scanBlock` returned an error (these are only
logged), and the value of `currentBlock` afterwards. -/
structure TickResult where
  scanned : List Nat
  failed : List Nat
  currentBlock : Nat
  deriving DecidableEq, Repr

/-- The loop `for blockNum := currentBlock; blockNum <= endBlock; blockNum++`
of `Start` (lines 112-117). `scanBlock h` tells whether `s.scanBlock(ctx, h)`
returns an error. The increment is a `uint64` increment. The result is `none`
when the loop has not finished after `fuel` iterations. -/
def scanLoop (scanBlock : Nat → Bool) : Nat → Nat → Nat → Option (List Nat × List Nat)
  | 0, _, _ => none
  | fuel + 1, blockNum, endBlock =>
    if blockNum ≤ endBlock then
      match scanLoop scanBlock fuel (u64add blockNum 1) endBlock with
      | none => none
      | some (sc, fl) =>
        some (blockNum :: sc, if scanBlock blockNum then blockNum :: fl else fl)
    else some ([], [])

/-- The body of the `case <-ticker.C` branch of `Start` (lines 89-119).
`latest` is the outcome of `s.client.BlockNumber(ctx)` (`none`: an error). -/
def startTick (s : Scanner) (scanBlock : Nat → Bool) (fuel : Nat) (currentBlock : Nat)
    (latest : Option Nat) : Option TickResult :=
  match latest with
  | none => some { scanned := [], failed := [], currentBlock := currentBlock }
  | some latestBlock =>
    let confirmedBlock := u64sub latestBlock s.confirmBlocks
    if currentBlock > confirmedBlock then
      some { scanned := [], failed := [], currentBlock := currentBlock }
    else
      let endBlock0 := u64add currentBlock (u64ofInt s.batchSize)
      let endBlock := if endBlock0 > confirmedBlock then confirmedBlock else endBlock0
      match scanLoop scanBlock fuel currentBlock endBlock with
      | none => none
      | some (sc, fl) =>
        some { scanned := sc, failed := fl, currentBlock := u64add endBlock 1 }

/-- The method `Scanner.Start` run over a finite sequence of ticker events,
after which the context is cancelled: the tick results in order and the final
`currentBlock`. Each event carries the outcome of `BlockNumber`. -/
def Start (s : Scanner) (scanBlock : Nat → Bool) (fuel : Nat) :
    Nat → List (Option Nat) → Option (List TickResult × Nat)
  | currentBlock, [] => some ([], currentBlock)
  | currentBlock, latest :: rest =>
    match startTick s scanBlock fuel currentBlock latest with
    | none => none
    | some r =>
      match Start s scanBlock fuel r.currentBlock rest with
      | none => none
      | some (rs, final) => some (r :: rs, final)

/-- The fields of `types.Transaction` that `HandleTransaction` reads. `To` is
`none` for a contract creation. -/
structure Transaction where
  Hash : Nat
  To : Option Address
  Value : Int
  ChainId : Int
  deriving DecidableEq, Repr

/-- The fields of `types.Receipt` that `HandleTransaction` reads. -/
structure Receipt where
  BlockNumber : Int
  Status : Nat
  deriving DecidableEq, Repr

/-- The type `scanner.Deposit`. -/
structure Deposit where
  TxHash : Nat
  BlockNumber : Nat
  From : Address
  To : Address
  Value : Int
  Status : Nat
  deriving DecidableEq, Repr

/-- The type `scanner.DepositHandler`; `hasCallback` tells whether the
`callback` field is non-nil. -/
structure DepositHandler where
  watchAddresses : Address → Bool
  hasCallback : Bool

/-- The method `DepositHandler.AddWatchAddress`, on a parsed address. -/
def AddWatchAddress (h : DepositHandler) (addr : Address) : DepositHandler :=
  { h with watchAddresses := fun a => if a = addr then true else h.watchAddresses a }

/-- The method `big.Int.Uint64`: the low 64 bits of the absolute value. -/
def bigUint64 (x : Int) : Nat := x.natAbs % U64

/-- What a call of `HandleTransaction` does: the `Deposit` the callback was
invoked with (`none`: the callback was not invoked) and whether the call
returned an error. -/
structure HandleResult where
  callbackArg : Option Deposit
  err : Bool
  deriving DecidableEq, Repr

/-- The method `DepositHandler.HandleTransaction`. `Sender tx` is the outcome
of `types.Sender(types.LatestSignerForChainID(tx.ChainId()), tx)` (`none`: an
error). -/
def HandleTransaction (h : DepositHandler) (Sender : Transaction → Option Address)
    (tx : Transaction) (receipt : Receipt) : HandleResult :=
  match tx.To with
  | none => { callbackArg := none, err := false }
  | some toAddr =>
    if h.watchAddresses toAddr = false then { callbackArg := none, err := false }
    else if tx.Value = 0 then { callbackArg := none, err := false }
    else
      match Sender tx with
      | none => { callbackArg := none, err := true }
      | some fromAddr =>
        let deposit : Deposit :=
          { TxHash := tx.Hash
            BlockNumber := bigUint64 receipt.BlockNumber
            From := fromAddr
            To := toAddr
            Value := tx.Value
            Status := receipt.Status }
        if h.hasCallback then { callbackArg := some deposit, err := false }
        else { callbackArg := none, err := false }

end Scan

namespace Risk

/-- One operation on a `Checker`: a `Check` call or one of the four list
mutations. -/
inductive Op where
  | check (today : String) (fromAddr toAddr : Address) (amount : Int)
  | addToBlacklist (addr : Address)
  | removeFromBlacklist (addr : Address)
  | addToWhitelist (addr : Address)
  | removeFromWhitelist (addr : Address)
  deriving DecidableEq, Repr

/-- The checker state after one operation. -/
def applyOp (c : Checker) : Op → Checker
  | .check today fromAddr toAddr amount => (Check c today fromAddr toAddr amount).1
  | .addToBlacklist addr => AddToBlacklist c addr
  | .removeFromBlacklist addr => RemoveFromBlacklist c addr
  | .addToWhitelist addr => AddToWhitelist c addr
  | .removeFromWhitelist addr => RemoveFromWhitelist c addr

/-- The checker state after a sequence of operations, first to last. -/
def runOps (c : Checker) : List Op → Checker
  | [] => c
  | op :: rest => runOps (applyOp c op) rest

end Risk

/-- The calls to the node and to the signer that the fee estimator and the
transfer executor make. -/
inductive Call where
  | BalanceAt
  | PendingNonceAt
  | EstimateGas
  | ChainID
  | SuggestGasTipCap
  | SuggestGasPrice
  | HeaderByNumber
  | SignTx
  | SendTransaction
  | TransactionReceipt
  deriving DecidableEq, Repr

deriving instance DecidableEq for Except

namespace Gas

/-- The constant `gas.Slow`. -/
def Slow : String := "slow"

/-- The constant `gas.Normal`. -/
def Normal : String := "normal"

/-- The constant `gas.Fast`. -/
def Fast : String := "fast"

/-- The type `gas.GasParams`; a nil `*big.Int` field is `none`. -/
structure GasParams where
  GasLimit : Nat
  GasPrice : Option Int
  GasTipCap : Option Int
  GasFeeCap : Option Int
  IsLegacy : Bool
  deriving DecidableEq, Repr

/-- The four errors `SuggestGasParams` returns, by the call that failed. -/
inductive GasError where
  | estimateGas
  | chainID
  | suggestGasTipCap
  | suggestGasPrice
  deriving DecidableEq, Repr

/-- The outcomes of the node calls of `SuggestGasParams`. `HeaderByNumber` is
`none` for an error, `some none` for a header whose `BaseFee` is nil and
`some (some b)` for a header with base fee `b`. -/
structure GasNode where
  EstimateGas : Option Nat
  ChainID : Option Int
  SuggestGasTipCap : Option Int
  SuggestGasPrice : Option Int
  HeaderByNumber : Option (Option Int)

/-- The Go conversion `int64(u)` of a `uint64`: values from `2 ^ 63` on become
negative. -/
def int64ofU64 (u : Nat) : Int :=
  if u % U64 < 2 ^ 63 then ((u % U64 : Nat) : Int) else ((u % U64 : Nat) : Int) - (U64 : Int)

/-- The method `big.Int.Int64`: `int64` of the low 64 bits of the absolute
value, negated (as an `int64`) for a negative number. -/
def bigInt64 (x : Int) : Int :=
  let v := int64ofU64 (x.natAbs % U64)
  if x < 0 then int64ofU64 ((-v) % (U64 : Int)).toNat else v

/-- The map literal `legacyChains` (lines 94-99) as a lookup. -/
def legacyChains (k : Int) : Bool :=
  k = 56 || k = 137 || k = 97 || k = 80002

/-- The `switch speed` of lines 81-91. -/
def speedMultiplier (speed : String) : Int :=
  if speed = Slow then 10
  else if speed = Normal then 11
  else if speed = Fast then 15
  else 11

/-- The statement `gasLimit = gasLimit * 120 / 100` on a `uint64` (line 61):
the product wraps at `2 ^ 64` before the division. -/
def addMargin (gasLimit : Nat) : Nat := (gasLimit * 120 % U64) / 100

/-- The function `gas.SuggestGasParams`: the node calls made, in order, and
the returned value. The arguments `from`, `to`, `value` and `data` only travel
to the node inside the `EstimateGas` call, whose outcome is given. -/
def SuggestGasParams (node : GasNode) (speed : String) :
    List Call × Except GasError GasParams :=
  match node.EstimateGas with
  | none => ([.EstimateGas], .error .estimateGas)
  | some estimate =>
    let gasLimit := addMargin estimate
    match node.ChainID with
    | none => ([.EstimateGas, .ChainID], .error .chainID)
    | some chainID =>
      match node.SuggestGasTipCap with
      | none => ([.EstimateGas, .ChainID, .SuggestGasTipCap], .error .suggestGasTipCap)
      | some suggestedGasTipCap =>
        match node.SuggestGasPrice with
        | none =>
          ([.EstimateGas, .ChainID, .SuggestGasTipCap, .SuggestGasPrice],
            .error .suggestGasPrice)
        | some suggestedGasFeeCap =>
          let multiplier := speedMultiplier speed
          if legacyChains (bigInt64 chainID) then
            let gasPrice := Int.ediv (suggestedGasFeeCap * multiplier) 10 + 1000000000
            ([.EstimateGas, .ChainID, .SuggestGasTipCap, .SuggestGasPrice],
              .ok { GasLimit := gasLimit, GasPrice := some gasPrice, GasTipCap := none,
                    GasFeeCap := none, IsLegacy := true })
          else
            let tip := Int.ediv (suggestedGasTipCap * multiplier) 10
            let baseFee : Int :=
              match node.HeaderByNumber with
              | some (some b) => b
              | _ => suggestedGasFeeCap
            let feeCap0 := Int.ediv ((baseFee + tip) * multiplier) 10
            let feeCap := if feeCap0 < tip then tip else feeCap0
            ([.EstimateGas, .ChainID, .SuggestGasTipCap, .SuggestGasPrice, .HeaderByNumber],
              .ok { GasLimit := gasLimit, GasPrice := none, GasTipCap := some tip,
                    GasFeeCap := some feeCap, IsLegacy := false })

/-- The payload of the unsigned transaction `CreateTransaction` builds: a
`types.LegacyTx` or a `types.DynamicFeeTx`. -/
inductive UnsignedTx where
  | legacy (Nonce : Nat) (To : Address) (Value : Int) (Gas : Nat) (GasPrice : Option Int)
      (Data : List Nat)
  | dynamicFee (ChainID : Int) (Nonce : Nat) (To : Address) (Value : Int) (Gas : Nat)
      (GasTipCap GasFeeCap : Option Int) (Data : List Nat)
  deriving DecidableEq, Repr

/-- The function `gas.CreateTransaction`, for a non-nil receiver. -/
def CreateTransaction (nonce : Nat) (toAddr : Address) (value : Int) (data : List Nat)
    (params : GasParams) (chainID : Int) : UnsignedTx :=
  if params.IsLegacy then
    .legacy nonce toAddr value params.GasLimit params.GasPrice data
  else
    .dynamicFee chainID nonce toAddr value params.GasLimit params.GasTipCap params.GasFeeCap data

/-- A node on which every call of `SuggestGasParams` succeeds: gas estimate
21000, suggested tip 2 gwei, suggested price 30 gwei, base fee 25 gwei. -/
def healthyNode (chainID : Int) : GasNode :=
  { EstimateGas := some 21000
    ChainID := some chainID
    SuggestGasTipCap := some 2000000000
    SuggestGasPrice := some 30000000000
    HeaderByNumber := some (some 25000000000) }

end Gas

namespace Transfer

/-- The type `transfer.Request`. `derivedAddr` is the address
`crypto.PubkeyToAddress` derives from `PrivateKey`. -/
structure Request where
  From : Address
  derivedAddr : Address
  To : Address
  Amount : Int
  Speed : String
  Data : List Nat

/-- The type `transfer.Result`. -/
structure Result where
  TxHash : Nat
  BlockNumber : Nat
  GasUsed : Nat
  Success : Bool
  deriving DecidableEq, Repr

/-- The fields of `types.Receipt` that `Execute` reads. -/
structure TxReceipt where
  BlockNumber : Int
  GasUsed : Nat
  Status : Nat
  deriving DecidableEq, Repr

/-- The errors `Execute` returns, by the step that failed. -/
inductive ExecError where
  | keyMismatch
  | balanceRead
  | insufficientBalance (amount balance : Int)
  | nonce
  | estimateGas (cause : Gas.GasError)
  | chainID
  | sign
  | send
  | receipt
  deriving DecidableEq, Repr

/-- The outcomes of the calls `Execute` makes: the node calls, the calls of
`SuggestGasParams` (`gas`), and `types.SignTx`, which yields the hash of the
signed transaction. `SendTransaction` is `true` when the broadcast succeeds. -/
structure Node where
  BalanceAt : Option Int
  PendingNonceAt : Option Nat
  gas : Gas.GasNode
  ChainID : Option Int
  SignTx : Gas.UnsignedTx → Option Nat
  SendTransaction : Bool
  TransactionReceipt : Option TxReceipt

/-- Steps 3 to 9 of `Execute` (lines 69-120), run after the balance check has
passed. -/
def executeAfterBalance (node : Node) (req : Request) :
    List Call × Except ExecError Result :=
  match node.PendingNonceAt with
  | none => ([.PendingNonceAt], .error .nonce)
  | some nonce =>
    match Gas.SuggestGasParams node.gas req.Speed with
    | (calls, .error e) => (.PendingNonceAt :: calls, .error (.estimateGas e))
    | (calls, .ok params) =>
      match node.ChainID with
      | none => (.PendingNonceAt :: calls ++ [.ChainID], .error .chainID)
      | some chainID =>
        let tx := Gas.CreateTransaction nonce req.To req.Amount req.Data params chainID
        match node.SignTx tx with
        | none => (.PendingNonceAt :: calls ++ [.ChainID, .SignTx], .error .sign)
        | some hash =>
          if node.SendTransaction = false then
            (.PendingNonceAt :: calls ++ [.ChainID, .SignTx, .SendTransaction], .error .send)
          else
            match node.TransactionReceipt with
            | none =>
              (.PendingNonceAt :: calls
                  ++ [.ChainID, .SignTx, .SendTransaction, .TransactionReceipt],
                .error .receipt)
            | some receipt =>
              (.PendingNonceAt :: calls
                  ++ [.ChainID, .SignTx, .SendTransaction, .TransactionReceipt],
                .ok { TxHash := hash
                      BlockNumber := Scan.bigUint64 receipt.BlockNumber
                      GasUsed := receipt.GasUsed
                      Success := decide (receipt.Status = 1) })

/-- The method `Transfer.Execute`: the calls made, in order, and the returned
value (an error carries no `Result`). -/
def Execute (node : Node) (req : Request) : List Call × Except ExecError Result :=
  if req.derivedAddr ≠ req.From then ([], .error .keyMismatch)
  else
    match node.BalanceAt with
    | none => ([.BalanceAt], .error .balanceRead)
    | some balance =>
      if balance < req.Amount then
        ([.BalanceAt], .error (.insufficientBalance req.Amount balance))
      else
        match executeAfterBalance node req with
        | (calls, r) => (.BalanceAt :: calls, r)

/-- A node with the given balance on which every later call succeeds. -/
def nodeWithBalance (balance : Int) : Node :=
  { BalanceAt := some balance
    PendingNonceAt := some 7
    gas := Gas.healthyNode 1
    ChainID := some 1
    SignTx := fun _ => some 4660
    SendTransaction := true
    TransactionReceipt := some { BlockNumber := 100, GasUsed := 21000, Status := 1 } }

/-- A request of the given amount whose key derives the sender `1`. -/
def requestOf (amount : Int) : Request :=
  { From := 1, derivedAddr := 1, To := 2, Amount := amount, Speed := Gas.Normal, Data := [] }

end Transfer

/-! ## Compliance gate: properties of `Check` -/

namespace Risk

theorem GetDailyAmount_setKey_same (c : Checker) (today : String) (a : Address) (v : Int) :
    GetDailyAmount { c with dailyAmounts := setKey c.dailyAmounts a (some ⟨today, v⟩) } today a
      = v := by
  simp [GetDailyAmount, setKey]

/-- The daily rule leaves the configuration and both lists alone. -/
theorem checkDaily_frame (c : Checker) (today : String) (a : Address) (amount : Int) :
    (checkDaily c today a amount).1.config = c.config
      ∧ (checkDaily c today a amount).1.blacklist = c.blacklist
      ∧ (checkDaily c today a amount).1.whitelist = c.whitelist := by
  unfold checkDaily
  cases hD : c.config.DailyLimit with
  | none => simp
  | some limit =>
    cases hE : c.dailyAmounts a with
    | none =>
      dsimp only
      split_ifs <;> simp
    | some d =>
      dsimp only
      split_ifs <;> simp

/-- Without a daily limit the daily rule does nothing. -/
theorem checkDaily_no_limit (c : Checker) (today : String) (a : Address) (amount : Int)
    (hD : c.config.DailyLimit = none) : checkDaily c today a amount = (c, none) := by
  simp [checkDaily, hD]

/-- When the running total plus the amount exceeds the limit, the daily rule
rejects with `RiskMedium` and the running total is unchanged. -/
theorem checkDaily_over (c : Checker) (today : String) (a : Address) (amount limit : Int)
    (hD : c.config.DailyLimit = some limit)
    (hover : GetDailyAmount c today a + amount > limit) :
    (checkDaily c today a amount).2
        = some ⟨false, .overDailyLimit (GetDailyAmount c today a + amount) limit, .RiskMedium⟩
      ∧ GetDailyAmount (checkDaily c today a amount).1 today a = GetDailyAmount c today a := by
  unfold checkDaily
  simp only [hD]
  cases hE : c.dailyAmounts a with
  | none =>
    simp only [GetDailyAmount, hE] at hover
    have h1 : limit < amount := by omega
    simp [GetDailyAmount, hE, h1, setKey]
  | some d =>
    by_cases hd : d.Date = today
    · simp only [GetDailyAmount, hE, hd, if_true] at hover
      have h1 : limit < d.Amount + amount := by omega
      simp [GetDailyAmount, hE, hd, h1]
    · simp only [GetDailyAmount, hE, hd, if_false] at hover
      have h1 : limit < amount := by omega
      simp [GetDailyAmount, hE, hd, h1, setKey]

/-- When the running total plus the amount is within the limit, the daily rule
lets the call continue and commits the addition. -/
theorem checkDaily_within (c : Checker) (today : String) (a : Address) (amount limit : Int)
    (hD : c.config.DailyLimit = some limit)
    (hin : ¬ GetDailyAmount c today a + amount > limit) :
    (checkDaily c today a amount).2 = none
      ∧ GetDailyAmount (checkDaily c today a amount).1 today a
          = GetDailyAmount c today a + amount := by
  unfold checkDaily
  simp only [hD]
  cases hE : c.dailyAmounts a with
  | none =>
    simp only [GetDailyAmount, hE] at hin
    have h1 : ¬ limit < amount := by omega
    simp [GetDailyAmount, hE, h1, setKey]
  | some d =>
    by_cases hd : d.Date = today
    · simp only [GetDailyAmount, hE, hd, if_true] at hin
      have h1 : ¬ limit < d.Amount + amount := by omega
      simp [GetDailyAmount, hE, hd, h1, setKey]
    · simp only [GetDailyAmount, hE, hd, if_false] at hin
      have h1 : ¬ limit < amount := by omega
      simp [GetDailyAmount, hE, hd, h1, setKey]

/-- The manual-approval rule reads only the configuration. -/
theorem checkManual_congr (c c1 : Checker) (amount : Int) (h : c1.config = c.config) :
    checkManual c1 amount = checkManual c amount := by
  simp [checkManual, h]

/-- A rejection by the manual-approval rule has `RiskLow`. -/
theorem checkManual_rejected (c : Checker) (amount : Int) (r : CheckResult)
    (hr : checkManual c amount = some r) (hp : r.Passed = false) : r.Risk = .RiskLow := by
  unfold checkManual at hr
  split at hr
  · split at hr
    · exact absurd hr (by simp)
    · dsimp only at hr
      split at hr
      · simp only [Option.some.injEq] at hr
        rw [← hr]
      · simp only [Option.some.injEq] at hr
        rw [← hr] at hp
        simp [passResult] at hp
  · simp only [Option.some.injEq] at hr
    rw [← hr] at hp
    simp [passResult] at hp

/-- The shape of `Check` once the enabled, whitelist, blacklist and
single-limit rules have let the call through: the daily rule, then the
manual-approval rule. -/
theorem Check_past_single (c : Checker) (today : String) (fromAddr toAddr : Address)
    (amount : Int) (hE : c.config.Enabled = true)
    (hwf : c.whitelist fromAddr = false) (hwt : c.whitelist toAddr = false)
    (hbf : c.blacklist fromAddr = false) (hbt : c.blacklist toAddr = false)
    (hs : ∀ L, c.config.SingleLimit = some L → ¬ amount > L) :
    Check c today fromAddr toAddr amount
      = ((checkDaily c today fromAddr amount).1,
          match (checkDaily c today fromAddr amount).2 with
          | some r => some r
          | none => checkManual (checkDaily c today fromAddr amount).1 amount) := by
  unfold Check
  simp only [hE, hwf, hwt, hbf, hbt, Bool.or_self, Bool.false_eq_true, if_false]
  cases hS : c.config.SingleLimit with
  | none =>
    dsimp only
    rcases hcd : checkDaily c today fromAddr amount with ⟨c1, _ | r⟩ <;> rfl
  | some L =>
    have hL := hs L hS
    dsimp only
    rw [if_neg hL]
    rcases hcd : checkDaily c today fromAddr amount with ⟨c1, _ | r⟩ <;> rfl

/-- C1 fails on the code: with single limit 100, daily limit 150 and manual
approval required, a `Check` of amount 60 returns `Passed = false` (manual
approval, `RiskLow`) and yet the sender's running daily total has grown from 0
to 60; after a second refused 60 the total is 120, and an amount of 40, which
no transfer has used up, is refused by the daily rule with `160 > 150`. -/
theorem Check_manual_refusal_commits_total :
    (Check (emptyChecker (limitsConfig (some 100) (some 150) true)) "2024-01-01" 1 2 60).2
        = some ⟨false, .manualApproval, .RiskLow⟩
      ∧ GetDailyAmount (emptyChecker (limitsConfig (some 100) (some 150) true))
          "2024-01-01" 1 = 0
      ∧ GetDailyAmount
          (Check (emptyChecker (limitsConfig (some 100) (some 150) true))
            "2024-01-01" 1 2 60).1 "2024-01-01" 1 = 60
      ∧ GetDailyAmount
          (runOps (emptyChecker (limitsConfig (some 100) (some 150) true))
            [.check "2024-01-01" 1 2 60, .check "2024-01-01" 1 2 60]) "2024-01-01" 1 = 120
      ∧ (Check
          (runOps (emptyChecker (limitsConfig (some 100) (some 150) true))
            [.check "2024-01-01" 1 2 60, .check "2024-01-01" 1 2 60])
          "2024-01-01" 1 2 40).2
        = some ⟨false, .overDailyLimit 160 150, .RiskMedium⟩ := by
  decide

/-- The refusals of the blacklist, single-limit and daily-limit rules leave the
running total alone: if `Check` returns `Passed = false` with a risk other than
`RiskLow`, the value `GetDailyAmount` returns for the sender on that day is the
same after the call as before it. -/
theorem Check_rejected_keeps_daily_total (c : Checker) (today : String)
    (fromAddr toAddr : Address) (amount : Int) (r : CheckResult)
    (hr : (Check c today fromAddr toAddr amount).2 = some r)
    (hp : r.Passed = false) (hl : r.Risk ≠ .RiskLow) :
    GetDailyAmount (Check c today fromAddr toAddr amount).1 today fromAddr
      = GetDailyAmount c today fromAddr := by
  by_cases hE : c.config.Enabled = true
  swap
  · simp [Check, hE]
  by_cases hw : (c.whitelist fromAddr || c.whitelist toAddr) = true
  · simp [Check, hE, hw]
  by_cases hbf : c.blacklist fromAddr = true
  · simp [Check, hE, hw, hbf]
  by_cases hbt : c.blacklist toAddr = true
  · simp [Check, hE, hw, hbf, hbt]
  by_cases hs : ∀ L, c.config.SingleLimit = some L → ¬ amount > L
  swap
  · push_neg at hs
    obtain ⟨L, hL, hgt⟩ := hs
    have hlt : L < amount := hgt
    simp [Check, hE, hw, hbf, hbt, hL, hlt]
  simp only [Bool.or_eq_true, not_or, Bool.not_eq_true] at hw
  simp only [Bool.not_eq_true] at hbf hbt
  rw [Check_past_single c today fromAddr toAddr amount hE hw.1 hw.2 hbf hbt hs] at hr ⊢
  dsimp only at hr ⊢
  cases hD : c.config.DailyLimit with
  | none => rw [checkDaily_no_limit c today fromAddr amount hD]
  | some limit =>
    by_cases hover : GetDailyAmount c today fromAddr + amount > limit
    · exact (checkDaily_over c today fromAddr amount limit hD hover).2
    · rw [(checkDaily_within c today fromAddr amount limit hD hover).1] at hr
      exact absurd (checkManual_rejected _ amount r hr hp) hl

/-- A refusal by the daily rule at a concrete input: the sender's entry of 100
is stored under the previous day; the amount 160 exceeds the daily limit 150,
the call is rejected with `RiskMedium`, and the running total is 0 before and
after. -/
theorem Check_rejected_keeps_daily_total_witness :
    (Check staleChecker "2024-01-02" 1 2 160).2
        = some ⟨false, .overDailyLimit 160 150, .RiskMedium⟩
      ∧ GetDailyAmount (Check staleChecker "2024-01-02" 1 2 160).1 "2024-01-02" 1
        = GetDailyAmount staleChecker "2024-01-02" 1 :=
  ⟨by decide,
    Check_rejected_keeps_daily_total staleChecker "2024-01-02" 1 2 160
      ⟨false, .overDailyLimit 160 150, .RiskMedium⟩ (by decide) (by decide) (by decide)⟩

/-- C2: if the sender or the receiver is whitelisted, `Check` returns
`Passed = true` with `RiskNone`, whatever the blacklist, the amount, the limits
and the enabled flag are; the checker state is unchanged. -/
theorem Check_whitelisted_passes (c : Checker) (today : String)
    (fromAddr toAddr : Address) (amount : Int)
    (hw : c.whitelist fromAddr = true ∨ c.whitelist toAddr = true) :
    ∃ r, Check c today fromAddr toAddr amount = (c, some r)
      ∧ r.Passed = true ∧ r.Risk = .RiskNone := by
  refine ⟨passResult, ?_, rfl, rfl⟩
  have hw1 : (c.whitelist fromAddr || c.whitelist toAddr) = true := by
    simpa [Bool.or_eq_true] using hw
  unfold Check
  by_cases hE : c.config.Enabled = false
  · rw [if_pos hE]
  · rw [if_neg hE, if_pos hw1]

/-- C2 at a concrete input: the receiver `1` is whitelisted, the sender `2` is
blacklisted, and the amount is far above every limit. -/
theorem Check_whitelisted_passes_witness :
    listedChecker.blacklist 2 = true ∧ listedChecker.whitelist 1 = true
      ∧ ∃ r, Check listedChecker "2024-01-02" 2 1 1000000 = (listedChecker, some r)
          ∧ r.Passed = true ∧ r.Risk = .RiskNone :=
  ⟨by decide, by decide,
    Check_whitelisted_passes listedChecker "2024-01-02" 2 1 1000000 (Or.inr (by decide))⟩

/-- C3: in an enabled checker with neither party whitelisted, a blacklisted
sender or receiver makes `Check` return `Passed = false` with `RiskHigh`, for
every amount and every limit configuration; the checker state is unchanged. -/
theorem Check_blacklisted_fails_high (c : Checker) (today : String)
    (fromAddr toAddr : Address) (amount : Int)
    (hE : c.config.Enabled = true)
    (hwf : c.whitelist fromAddr = false) (hwt : c.whitelist toAddr = false)
    (hb : c.blacklist fromAddr = true ∨ c.blacklist toAddr = true) :
    ∃ r, Check c today fromAddr toAddr amount = (c, some r)
      ∧ r.Passed = false ∧ r.Risk = .RiskHigh := by
  by_cases hbf : c.blacklist fromAddr = true
  · exact ⟨⟨false, .fromBlacklisted fromAddr, .RiskHigh⟩,
      by simp [Check, hE, hwf, hwt, hbf], rfl, rfl⟩
  · have hbt : c.blacklist toAddr = true := hb.resolve_left hbf
    exact ⟨⟨false, .toBlacklisted toAddr, .RiskHigh⟩,
      by simp [Check, hE, hwf, hwt, hbf, hbt], rfl, rfl⟩

/-- C3 at a concrete input: the receiver `2` is blacklisted, nobody involved is
whitelisted, and the amount 1 is within every limit. -/
theorem Check_blacklisted_fails_high_witness :
    ∃ r, Check listedChecker "2024-01-02" 3 2 1 = (listedChecker, some r)
      ∧ r.Passed = false ∧ r.Risk = .RiskHigh :=
  Check_blacklisted_fails_high listedChecker "2024-01-02" 3 2 1 (by decide) (by decide)
    (by decide) (Or.inr (by decide))

/-- C4: in an enabled checker with single limit `L` and parties neither
whitelisted nor blacklisted, an amount above `L` makes `Check` return
`Passed = false` with `RiskMedium`, and the daily accumulator map is exactly
the one before the call. -/
theorem Check_over_single_limit (c : Checker) (today : String)
    (fromAddr toAddr : Address) (amount L : Int)
    (hE : c.config.Enabled = true) (hS : c.config.SingleLimit = some L)
    (hwf : c.whitelist fromAddr = false) (hwt : c.whitelist toAddr = false)
    (hbf : c.blacklist fromAddr = false) (hbt : c.blacklist toAddr = false)
    (hgt : amount > L) :
    ∃ r, (Check c today fromAddr toAddr amount).2 = some r
      ∧ r.Passed = false ∧ r.Risk = .RiskMedium
      ∧ (Check c today fromAddr toAddr amount).1.dailyAmounts = c.dailyAmounts := by
  have hlt : L < amount := hgt
  refine ⟨⟨false, .overSingleLimit amount L, .RiskMedium⟩, ?_, rfl, rfl, ?_⟩
    <;> simp [Check, hE, hwf, hwt, hbf, hbt, hS, hlt]

/-- C4 at the input of the scenario: single limit 100, daily limit 150, manual
approval off, amount 120. -/
theorem Check_over_single_limit_witness :
    ∃ r, (Check (emptyChecker (limitsConfig (some 100) (some 150) false))
            "2024-01-02" 1 2 120).2 = some r
      ∧ r.Passed = false ∧ r.Risk = .RiskMedium
      ∧ (Check (emptyChecker (limitsConfig (some 100) (some 150) false))
            "2024-01-02" 1 2 120).1.dailyAmounts
          = (emptyChecker (limitsConfig (some 100) (some 150) false)).dailyAmounts :=
  Check_over_single_limit (emptyChecker (limitsConfig (some 100) (some 150) false))
    "2024-01-02" 1 2 120 100 rfl rfl rfl rfl rfl rfl (by decide)

/-- An absent or stale accumulator entry counts as a running total of zero. -/
theorem GetDailyAmount_of_stale (c : Checker) (today : String) (a : Address)
    (hstale : ∀ d, c.dailyAmounts a = some d → d.Date ≠ today) :
    GetDailyAmount c today a = 0 := by
  unfold GetDailyAmount
  cases hE : c.dailyAmounts a with
  | none => rfl
  | some d => simp [hstale d hE]

/-- C5: in an enabled checker with manual approval off, single limit `L`,
daily limit `D`, parties neither whitelisted nor blacklisted and a sender whose
accumulator entry is absent or stored under another day: for `a1 ≤ L`,
`a2 ≤ L`, `a1 ≤ D` and `a1 + a2 > D`, two `Check` calls on the same day give
first `Passed = true` with `RiskNone`, then `Passed = false` with `RiskMedium`,
and afterwards `GetDailyAmount` of the sender is `a1`. -/
theorem Check_twice_over_daily_limit (c : Checker) (today : String)
    (fromAddr to1 to2 : Address) (a1 a2 L D : Int)
    (hE : c.config.Enabled = true) (hM : c.config.RequireManualApproval = false)
    (hS : c.config.SingleLimit = some L) (hD : c.config.DailyLimit = some D)
    (hwf : c.whitelist fromAddr = false) (hw1 : c.whitelist to1 = false)
    (hw2 : c.whitelist to2 = false)
    (hbf : c.blacklist fromAddr = false) (hb1 : c.blacklist to1 = false)
    (hb2 : c.blacklist to2 = false)
    (hstale : ∀ d, c.dailyAmounts fromAddr = some d → d.Date ≠ today)
    (h1 : a1 ≤ L) (h2 : a2 ≤ L) (h3 : a1 ≤ D) (h4 : a1 + a2 > D) :
    ∃ r1 r2,
      (Check c today fromAddr to1 a1).2 = some r1
        ∧ r1.Passed = true ∧ r1.Risk = .RiskNone
        ∧ (Check (Check c today fromAddr to1 a1).1 today fromAddr to2 a2).2 = some r2
        ∧ r2.Passed = false ∧ r2.Risk = .RiskMedium
        ∧ GetDailyAmount (Check (Check c today fromAddr to1 a1).1 today fromAddr to2 a2).1
            today fromAddr = a1 := by
  have hzero := GetDailyAmount_of_stale c today fromAddr hstale
  have hs1 : ∀ L1, c.config.SingleLimit = some L1 → ¬ a1 > L1 := by
    intro L1 hL1
    rw [hS] at hL1
    cases hL1
    omega
  have hin : ¬ GetDailyAmount c today fromAddr + a1 > D := by
    rw [hzero]
    omega
  have hfirst := Check_past_single c today fromAddr to1 a1 hE hwf hw1 hbf hb1 hs1
  obtain ⟨hw_none, hw_total⟩ := checkDaily_within c today fromAddr a1 D hD hin
  obtain ⟨hcfg, hbl, hwl⟩ := checkDaily_frame c today fromAddr a1
  rw [hw_none] at hfirst
  dsimp only at hfirst
  have hman : checkManual (checkDaily c today fromAddr a1).1 a1 = some passResult := by
    simp [checkManual, hcfg, hM]
  rw [hman] at hfirst
  rw [hfirst]
  dsimp only
  generalize (checkDaily c today fromAddr a1).1 = c1 at hw_total hcfg hbl hwl
  rw [hzero, zero_add] at hw_total
  have hs2 : ∀ L1, c1.config.SingleLimit = some L1 → ¬ a2 > L1 := by
    intro L1 hL1
    rw [hcfg, hS] at hL1
    cases hL1
    omega
  have hover : GetDailyAmount c1 today fromAddr + a2 > D := by
    rw [hw_total]
    exact h4
  have hsecond := Check_past_single c1 today fromAddr to2 a2 (by rw [hcfg]; exact hE)
    (by rw [hwl]; exact hwf) (by rw [hwl]; exact hw2) (by rw [hbl]; exact hbf)
    (by rw [hbl]; exact hb2) hs2
  obtain ⟨ho_res, ho_total⟩ :=
    checkDaily_over c1 today fromAddr a2 D (by rw [hcfg]; exact hD) hover
  rw [ho_res] at hsecond
  dsimp only at hsecond
  rw [hsecond]
  exact ⟨passResult, _, rfl, rfl, rfl, rfl, rfl, rfl, by rw [ho_total, hw_total]⟩

/-- C5 at a concrete input: single limit 200, daily limit 150, the sender's
entry stored under the previous day, amounts 100 and then 80. -/
theorem Check_twice_over_daily_limit_witness :
    ∃ r1 r2,
      (Check staleChecker "2024-01-02" 1 2 100).2 = some r1
        ∧ r1.Passed = true ∧ r1.Risk = .RiskNone
        ∧ (Check (Check staleChecker "2024-01-02" 1 2 100).1 "2024-01-02" 1 3 80).2 = some r2
        ∧ r2.Passed = false ∧ r2.Risk = .RiskMedium
        ∧ GetDailyAmount
            (Check (Check staleChecker "2024-01-02" 1 2 100).1 "2024-01-02" 1 3 80).1
            "2024-01-02" 1 = 100 :=
  Check_twice_over_daily_limit staleChecker "2024-01-02" 1 2 3 100 80 200 150
    rfl rfl rfl rfl rfl rfl rfl rfl rfl rfl (by decide) (by decide) (by decide) (by decide)
    (by decide)

/-- The integer threshold `L / 2` of the manual-approval rule agrees with the
exact half: an amount exceeds it exactly when twice the amount exceeds `L`. -/
theorem half_threshold_exact (amount L : Int) :
    amount > Int.ediv L 2 ↔ 2 * amount > L := by
  show amount > L / 2 ↔ 2 * amount > L
  omega

/-- C6: in an enabled checker with manual approval required and a non-negative
single limit `L`, a `Check` that gets past the whitelist, blacklist,
single-limit and daily-limit rules returns `Passed = false` with `RiskLow` when
`2 * amount > L`, and `Passed = true` with `RiskNone` otherwise. -/
theorem Check_manual_approval_exact_half (c : Checker) (today : String)
    (fromAddr toAddr : Address) (amount L : Int)
    (hE : c.config.Enabled = true) (hM : c.config.RequireManualApproval = true)
    (hS : c.config.SingleLimit = some L) (hL : 0 ≤ L)
    (hwf : c.whitelist fromAddr = false) (hwt : c.whitelist toAddr = false)
    (hbf : c.blacklist fromAddr = false) (hbt : c.blacklist toAddr = false)
    (hsingle : amount ≤ L)
    (hdaily : ∀ D, c.config.DailyLimit = some D →
      GetDailyAmount c today fromAddr + amount ≤ D) :
    (2 * amount > L →
        (Check c today fromAddr toAddr amount).2 = some ⟨false, .manualApproval, .RiskLow⟩)
      ∧ (¬ 2 * amount > L →
        (Check c today fromAddr toAddr amount).2 = some ⟨true, .empty, .RiskNone⟩) := by
  have _ := hL
  have hs : ∀ L1, c.config.SingleLimit = some L1 → ¬ amount > L1 := by
    intro L1 hL1
    rw [hS] at hL1
    cases hL1
    omega
  have hshape := Check_past_single c today fromAddr toAddr amount hE hwf hwt hbf hbt hs
  have hnone : (checkDaily c today fromAddr amount).2 = none := by
    cases hD : c.config.DailyLimit with
    | none => rw [checkDaily_no_limit c today fromAddr amount hD]
    | some D =>
      have hle := hdaily D hD
      exact (checkDaily_within c today fromAddr amount D hD (by omega)).1
  rw [hnone] at hshape
  dsimp only at hshape
  rw [checkManual_congr c _ amount (checkDaily_frame c today fromAddr amount).1] at hshape
  rw [hshape]
  dsimp only
  constructor
  · intro h
    have h1 : amount > Int.ediv L 2 := (half_threshold_exact amount L).2 h
    simp [checkManual, hM, hS, h1]
  · intro h
    have h1 : ¬ amount > Int.ediv L 2 := fun h2 => h ((half_threshold_exact amount L).1 h2)
    simp [checkManual, hM, hS, h1, passResult]

/-- C6 at a concrete input with an odd limit: single limit 101, daily limit
150, amount 51 (one above the integer threshold 50). -/
theorem Check_manual_approval_exact_half_witness :
    (2 * (51 : Int) > 101 →
        (Check (emptyChecker (limitsConfig (some 101) (some 150) true)) "2024-01-02" 1 2 51).2
          = some ⟨false, .manualApproval, .RiskLow⟩)
      ∧ (¬ 2 * (51 : Int) > 101 →
        (Check (emptyChecker (limitsConfig (some 101) (some 150) true)) "2024-01-02" 1 2 51).2
          = some ⟨true, .empty, .RiskNone⟩) :=
  Check_manual_approval_exact_half (emptyChecker (limitsConfig (some 101) (some 150) true))
    "2024-01-02" 1 2 51 101 rfl rfl rfl (by decide) rfl rfl rfl rfl (by decide)
    (fun D hD => by
      have h150 : (150 : Int) = D := Option.some.inj hD
      rw [← h150]
      decide)

end Risk

/-! ## Chain scanner: properties of one tick of `Start` -/

namespace Scan

theorem U64_eq : U64 = 18446744073709551616 := by
  norm_num [U64]

/-- A `uint64` subtraction that does not go below zero is the subtraction. -/
theorem u64sub_of_le (a b : Nat) (hab : b ≤ a) (ha : a < U64) : u64sub a b = a - b := by
  unfold u64sub
  rw [U64_eq] at *
  omega

/-- A `uint64` addition that stays below `2 ^ 64` is the addition. -/
theorem u64add_of_lt (a b : Nat) (h : a + b < U64) : u64add a b = a + b := by
  unfold u64add
  exact Nat.mod_eq_of_lt h

/-- A non-negative `int` that fits is converted to itself. -/
theorem u64ofInt_of_nonneg (i : Int) (h0 : 0 ≤ i) (h1 : i < (U64 : Int)) :
    u64ofInt i = i.toNat := by
  unfold u64ofInt
  rw [Int.emod_eq_of_lt h0 h1]

/-- Every height the scan loop passes to `scanBlock` is at most `endBlock`,
whether or not the counter wraps. -/
theorem scanLoop_mem_le (scanBlock : Nat → Bool) :
    ∀ (fuel blockNum endBlock : Nat) (sc fl : List Nat),
      scanLoop scanBlock fuel blockNum endBlock = some (sc, fl) →
      ∀ x ∈ sc, x ≤ endBlock := by
  intro fuel
  induction fuel with
  | zero =>
    intro blockNum endBlock sc fl h
    simp [scanLoop] at h
  | succ n ih =>
    intro blockNum endBlock sc fl h x hx
    unfold scanLoop at h
    by_cases hle : blockNum ≤ endBlock
    · rw [if_pos hle] at h
      cases hrec : scanLoop scanBlock n (u64add blockNum 1) endBlock with
      | none => simp [hrec] at h
      | some p =>
        obtain ⟨sc1, fl1⟩ := p
        simp only [hrec, Option.some.injEq, Prod.mk.injEq] at h
        obtain ⟨hsc, _⟩ := h
        rw [← hsc] at hx
        rcases List.mem_cons.1 hx with hx1 | hx1
        · rw [hx1]
          exact hle
        · exact ih _ _ sc1 fl1 hrec x hx1
    · rw [if_neg hle] at h
      simp only [Option.some.injEq, Prod.mk.injEq] at h
      rw [← h.1] at hx
      simp at hx

/-- When `endBlock + 1` does not wrap, the scan loop with enough fuel passes
exactly the heights `blockNum, blockNum + 1, ..., endBlock` to `scanBlock`, in
this order. -/
theorem scanLoop_range (scanBlock : Nat → Bool) :
    ∀ (fuel blockNum endBlock : Nat), endBlock + 1 < U64 → blockNum ≤ endBlock + 1 →
      endBlock + 1 - blockNum < fuel →
      scanLoop scanBlock fuel blockNum endBlock
        = some (List.range' blockNum (endBlock + 1 - blockNum),
            (List.range' blockNum (endBlock + 1 - blockNum)).filter scanBlock) := by
  intro fuel
  induction fuel with
  | zero =>
    intro blockNum endBlock _ _ h
    omega
  | succ n ih =>
    intro blockNum endBlock hend hb hfuel
    unfold scanLoop
    by_cases hle : blockNum ≤ endBlock
    · rw [if_pos hle]
      have hadd : u64add blockNum 1 = blockNum + 1 := u64add_of_lt _ _ (by omega)
      rw [hadd, ih (blockNum + 1) endBlock hend (by omega) (by omega)]
      have hlen : endBlock + 1 - blockNum = (endBlock + 1 - (blockNum + 1)) + 1 := by omega
      rw [hlen, List.range'_succ]
      by_cases hs : scanBlock blockNum = true
      · simp [hs, List.filter_cons]
      · simp [hs, List.filter_cons]
    · rw [if_neg hle]
      have hzero : endBlock + 1 - blockNum = 0 := by omega
      rw [hzero]
      rfl

/-- What one tick does when nothing wraps: with `0 ≤ batchSize`,
`currentBlock + batchSize + 1 < 2 ^ 64`, the cursor not past the confirmed head
and enough fuel, the heights passed to `scanBlock` are
`currentBlock, ..., min (currentBlock + batchSize) confirmedHead` in ascending
order, and the cursor moves to one past the last of them. -/
theorem startTick_range (s : Scanner) (scanBlock : Nat → Bool) (fuel currentBlock latest : Nat)
    (hb : 0 ≤ s.batchSize) (hnw : currentBlock + s.batchSize.toNat + 1 < U64)
    (hcur : currentBlock ≤ u64sub latest s.confirmBlocks)
    (hfuel : s.batchSize.toNat + 1 < fuel) :
    startTick s scanBlock fuel currentBlock (some latest)
      = some
          { scanned := List.range' currentBlock
              (min (currentBlock + s.batchSize.toNat) (u64sub latest s.confirmBlocks) + 1
                - currentBlock)
            failed := (List.range' currentBlock
              (min (currentBlock + s.batchSize.toNat) (u64sub latest s.confirmBlocks) + 1
                - currentBlock)).filter scanBlock
            currentBlock :=
              min (currentBlock + s.batchSize.toNat) (u64sub latest s.confirmBlocks) + 1 } := by
  have hconv : u64ofInt s.batchSize = s.batchSize.toNat :=
    u64ofInt_of_nonneg _ hb (by
      have h1 : (s.batchSize.toNat : Int) = s.batchSize := Int.toNat_of_nonneg hb
      have h2 : s.batchSize.toNat < U64 := by omega
      omega)
  have hend0 : u64add currentBlock (u64ofInt s.batchSize) = currentBlock + s.batchSize.toNat := by
    rw [hconv]
    exact u64add_of_lt _ _ (by omega)
  unfold startTick
  simp only [hend0]
  rw [if_neg (by omega)]
  have hmin : (if currentBlock + s.batchSize.toNat > u64sub latest s.confirmBlocks
        then u64sub latest s.confirmBlocks else currentBlock + s.batchSize.toNat)
      = min (currentBlock + s.batchSize.toNat) (u64sub latest s.confirmBlocks) := by
    split_ifs with h
    · exact (Nat.min_eq_right (by omega)).symm
    · exact (Nat.min_eq_left (by omega)).symm
  rw [hmin]
  have hle1 : min (currentBlock + s.batchSize.toNat) (u64sub latest s.confirmBlocks)
      ≤ currentBlock + s.batchSize.toNat := Nat.min_le_left _ _
  have hge : currentBlock
      ≤ min (currentBlock + s.batchSize.toNat) (u64sub latest s.confirmBlocks) :=
    Nat.le_min.2 ⟨by omega, hcur⟩
  rw [scanLoop_range scanBlock fuel currentBlock _ (by omega) (by omega) (by omega)]
  simp only [Option.some.injEq, TickResult.mk.injEq, true_and]
  exact u64add_of_lt _ _ (by omega)

/-- When the head is at least the confirmation depth, no tick passes to
`scanBlock` a height with fewer than `confirmBlocks` blocks behind the head. -/
theorem startTick_scanned_confirmed (s : Scanner) (scanBlock : Nat → Bool)
    (fuel currentBlock latest : Nat) (r : TickResult)
    (hc : s.confirmBlocks ≤ latest) (hl : latest < U64)
    (hr : startTick s scanBlock fuel currentBlock (some latest) = some r) :
    ∀ x ∈ r.scanned, x + s.confirmBlocks ≤ latest := by
  intro x hx
  have hsub := u64sub_of_le latest s.confirmBlocks hc hl
  unfold startTick at hr
  dsimp only at hr
  split_ifs at hr with h1 h2
  · simp only [Option.some.injEq] at hr
    rw [← hr] at hx
    simp at hx
  · cases hloop : scanLoop scanBlock fuel currentBlock (u64sub latest s.confirmBlocks) with
    | none => simp [hloop] at hr
    | some p =>
      obtain ⟨sc, fl⟩ := p
      simp only [hloop, Option.some.injEq] at hr
      rw [← hr] at hx
      have := scanLoop_mem_le scanBlock fuel _ _ sc fl hloop x hx
      omega
  · cases hloop : scanLoop scanBlock fuel currentBlock
        (u64add currentBlock (u64ofInt s.batchSize)) with
    | none => simp [hloop] at hr
    | some p =>
      obtain ⟨sc, fl⟩ := p
      simp only [hloop, Option.some.injEq] at hr
      rw [← hr] at hx
      have := scanLoop_mem_le scanBlock fuel _ _ sc fl hloop x hx
      omega

/-- With a non-negative batch size and no `uint64` wrap-around, a tick returns
and leaves the cursor at or above its value before the tick, whatever the
outcome of `BlockNumber` and of each `scanBlock`. -/
theorem startTick_cursor_monotone (s : Scanner) (scanBlock : Nat → Bool)
    (fuel currentBlock : Nat) (latest : Option Nat)
    (hb : 0 ≤ s.batchSize) (hnw : currentBlock + s.batchSize.toNat + 1 < U64)
    (hfuel : s.batchSize.toNat + 1 < fuel) :
    ∃ r, startTick s scanBlock fuel currentBlock latest = some r
      ∧ currentBlock ≤ r.currentBlock := by
  cases latest with
  | none => exact ⟨_, rfl, Nat.le_refl _⟩
  | some latestBlock =>
    by_cases hcur : currentBlock ≤ u64sub latestBlock s.confirmBlocks
    · refine ⟨_, startTick_range s scanBlock fuel currentBlock latestBlock hb hnw hcur hfuel, ?_⟩
      have hge : currentBlock
          ≤ min (currentBlock + s.batchSize.toNat) (u64sub latestBlock s.confirmBlocks) :=
        Nat.le_min.2 ⟨by omega, hcur⟩
      exact Nat.le_succ_of_le hge
    · refine ⟨{ scanned := [], failed := [], currentBlock := currentBlock }, ?_, Nat.le_refl _⟩
      unfold startTick
      dsimp only
      rw [if_pos (by omega)]

/-- C7 fails on the code: with cursor 100, head 212, confirmation depth 12
(confirmed head 200) and batch size 10, one tick passes the eleven heights
100..110 to `scanBlock`, not the ten heights 100..109 of the range
`[cursor, min(cursor + batchSize - 1, confirmedHead)]`. -/
theorem startTick_scans_one_past_batch :
    startTick ⟨100, 12, 10⟩ (fun _ => false) 20 100 (some 212)
      = some ⟨[100, 101, 102, 103, 104, 105, 106, 107, 108, 109, 110], [], 111⟩ := by
  decide

/-- C8 fails on the code: with head 5 below the confirmation depth 12, the
`uint64` subtraction `5 - 12` wraps to `2 ^ 64 - 7`, the tick is not skipped,
and the heights 5..15 are passed to `scanBlock`; none of them satisfies
`b + 12 ≤ 5`, and 6..15 are above the head itself. -/
theorem startTick_scans_unconfirmed_below_depth :
    startTick ⟨5, 12, 10⟩ (fun _ => false) 20 5 (some 5)
        = some ⟨[5, 6, 7, 8, 9, 10, 11, 12, 13, 14, 15], [], 16⟩
      ∧ u64sub 5 12 = 18446744073709551609
      ∧ ¬ (5 + 12 ≤ 5) := by
  decide

/-- C9 fails on the code: with batch size -5 the conversion `uint64(batchSize)`
is `2 ^ 64 - 5`, `endBlock` wraps to 95, no block is scanned, and the cursor
goes from 100 back to 96. -/
theorem startTick_rewinds_on_negative_batch :
    startTick ⟨100, 12, -5⟩ (fun _ => false) 20 100 (some 200) = some ⟨[], [], 96⟩
      ∧ u64ofInt (-5) = 18446744073709551611
      ∧ 96 < 100 := by
  decide

/-! ## Deposit filter: properties of `HandleTransaction` -/

/-- C10: for a transaction whose value is not negative (every transaction
decoded from the chain carries an unsigned value), `HandleTransaction` invokes
the callback only when the transaction has a receiver, that receiver is in the
watch set and the value is greater than zero; the `Deposit` handed over has that
receiver as `To` and the transaction value as `Value`; a contract creation or a
zero-value transaction never reaches the callback. -/
theorem HandleTransaction_callback_only_for_watched_value (h : DepositHandler)
    (Sender : Transaction → Option Address) (tx : Transaction) (receipt : Receipt)
    (hv : 0 ≤ tx.Value) :
    (∀ d, (HandleTransaction h Sender tx receipt).callbackArg = some d →
        ∃ toAddr, tx.To = some toAddr ∧ h.watchAddresses toAddr = true ∧ 0 < tx.Value
          ∧ d.To = toAddr ∧ d.Value = tx.Value)
      ∧ (tx.To = none ∨ tx.Value = 0 →
        (HandleTransaction h Sender tx receipt).callbackArg = none) := by
  constructor
  · intro d hd
    unfold HandleTransaction at hd
    cases hTo : tx.To with
    | none => simp [hTo] at hd
    | some toAddr =>
      simp only [hTo] at hd
      by_cases hw : h.watchAddresses toAddr = false
      · simp [hw] at hd
      · rw [if_neg hw] at hd
        by_cases hz : tx.Value = 0
        · simp [hz] at hd
        · rw [if_neg hz] at hd
          cases hS : Sender tx with
          | none => simp [hS] at hd
          | some fromAddr =>
            simp only [hS] at hd
            by_cases hcb : h.hasCallback = true
            · simp only [hcb, if_true, Option.some.injEq] at hd
              refine ⟨toAddr, rfl, by simpa using hw, by omega, ?_, ?_⟩
              · rw [← hd]
              · rw [← hd]
            · simp [hcb] at hd
  · intro hno
    unfold HandleTransaction
    cases hTo : tx.To with
    | none => rfl
    | some toAddr =>
      have hz : tx.Value = 0 := by
        rcases hno with h1 | h1
        · rw [hTo] at h1
          exact absurd h1 (by simp)
        · exact h1
      dsimp only
      split_ifs <;> rfl

/-- C10 at a concrete input: the receiver 7 is watched, the value is 5 and the
recovered sender is 9; the callback receives the deposit with `To = 7` and
`Value = 5`. -/
theorem HandleTransaction_callback_only_for_watched_value_witness :
    (HandleTransaction ⟨fun a => decide (a = 7), true⟩ (fun _ => some 9)
        ⟨1, some 7, 5, 1⟩ ⟨10, 1⟩).callbackArg = some ⟨1, 10, 9, 7, 5, 1⟩
      ∧ (∀ d, (HandleTransaction ⟨fun a => decide (a = 7), true⟩ (fun _ => some 9)
            ⟨1, some 7, 5, 1⟩ ⟨10, 1⟩).callbackArg = some d →
          ∃ toAddr, (⟨1, some 7, 5, 1⟩ : Transaction).To = some toAddr
            ∧ decide (toAddr = 7) = true ∧ 0 < (⟨1, some 7, 5, 1⟩ : Transaction).Value
            ∧ d.To = toAddr ∧ d.Value = (⟨1, some 7, 5, 1⟩ : Transaction).Value)
      ∧ ((⟨1, some 7, 5, 1⟩ : Transaction).To = none
          ∨ (⟨1, some 7, 5, 1⟩ : Transaction).Value = 0 →
        (HandleTransaction ⟨fun a => decide (a = 7), true⟩ (fun _ => some 9)
            ⟨1, some 7, 5, 1⟩ ⟨10, 1⟩).callbackArg = none) :=
  ⟨by decide,
    HandleTransaction_callback_only_for_watched_value ⟨fun a => decide (a = 7), true⟩
      (fun _ => some 9) ⟨1, some 7, 5, 1⟩ ⟨10, 1⟩ (by decide)⟩

end Scan

/-! ## Fee estimator: properties of `SuggestGasParams` -/

namespace Gas

/-- The method `Int64` is the identity on the integers that fit in an `int64`. -/
theorem bigInt64_of_fits (c : Int) (hlo : -9223372036854775808 ≤ c)
    (hhi : c < 9223372036854775808) : bigInt64 c = c := by
  have hU : U64 = 18446744073709551616 := by norm_num [U64]
  have hP : (2 : Nat) ^ 63 = 9223372036854775808 := by norm_num
  unfold bigInt64 int64ofU64
  rw [hU, hP]
  rcases Int.natAbs_eq c with h | h
  · generalize c.natAbs = n at h
    subst h
    dsimp only
    split_ifs <;> omega
  · generalize c.natAbs = n at h
    subst h
    dsimp only
    split_ifs <;> omega

/-- The result of `SuggestGasParams` on a chain the code classifies as legacy,
when the four calls before the classification succeed. -/
theorem SuggestGasParams_legacy (node : GasNode) (speed : String) (g : Nat) (c tipS priceS : Int)
    (hg : node.EstimateGas = some g) (hc : node.ChainID = some c)
    (ht : node.SuggestGasTipCap = some tipS) (hp : node.SuggestGasPrice = some priceS)
    (hleg : legacyChains (bigInt64 c) = true) :
    (SuggestGasParams node speed).2
      = .ok { GasLimit := addMargin g
              GasPrice := some (priceS * speedMultiplier speed / 10 + 1000000000)
              GasTipCap := none, GasFeeCap := none, IsLegacy := true } := by
  simp only [SuggestGasParams, hg, hc, ht, hp, hleg, if_true]
  rfl

/-- The result of `SuggestGasParams` on a chain the code classifies as
fee-market, when the four calls before the classification succeed. -/
theorem SuggestGasParams_feeMarket (node : GasNode) (speed : String) (g : Nat)
    (c tipS priceS : Int)
    (hg : node.EstimateGas = some g) (hc : node.ChainID = some c)
    (ht : node.SuggestGasTipCap = some tipS) (hp : node.SuggestGasPrice = some priceS)
    (hleg : legacyChains (bigInt64 c) = false) :
    (SuggestGasParams node speed).2
      = .ok { GasLimit := addMargin g
              GasPrice := none
              GasTipCap := some (tipS * speedMultiplier speed / 10)
              GasFeeCap := some (max (tipS * speedMultiplier speed / 10)
                (((node.HeaderByNumber.join).getD priceS + tipS * speedMultiplier speed / 10)
                  * speedMultiplier speed / 10))
              IsLegacy := false } := by
  have hbase : (match node.HeaderByNumber with
        | some (some b) => b
        | _ => priceS) = (node.HeaderByNumber.join).getD priceS := by
    rcases node.HeaderByNumber with _ | _ | b <;> rfl
  simp only [SuggestGasParams, hg, hc, ht, hp, hleg, Bool.false_eq_true, if_false, hbase]
  have hdiv : ∀ x : Int, Int.ediv x 10 = x / 10 := fun _ => rfl
  simp only [hdiv]
  congr 3
  split_ifs with h
  · exact (max_eq_left (le_of_lt h)).symm
  · exact (max_eq_right (not_lt.1 h)).symm

/-- For a chain identifier that fits in an `int64`, the code classifies the
chain as legacy exactly when the identifier is 56, 137, 97 or 80002. -/
theorem legacyChains_of_fits (c : Int) (hlo : -9223372036854775808 ≤ c)
    (hhi : c < 9223372036854775808) :
    legacyChains (bigInt64 c) = true ↔ c = 56 ∨ c = 137 ∨ c = 97 ∨ c = 80002 := by
  rw [bigInt64_of_fits c hlo hhi]
  simp [legacyChains, or_assoc]

/-- C11 fails on the code: the chain identifier `2 ^ 64 + 56` is none of 56,
137, 97 and 80002, yet with every node call succeeding `SuggestGasParams`
returns `IsLegacy = true` with `GasPrice` set and no tip or fee cap, because
`chainID.Int64()` keeps only the low 64 bits, which are 56. -/
theorem SuggestGasParams_legacy_on_wrapped_chain_id :
    bigInt64 18446744073709551672 = 56
      ∧ (SuggestGasParams (healthyNode 18446744073709551672) Normal).2
        = .ok { GasLimit := 25200, GasPrice := some 34000000000, GasTipCap := none,
                GasFeeCap := none, IsLegacy := true } := by
  decide

/-- C12 fails on the code: the chain identifier `2 ^ 64 + 56` is none of the
legacy identifiers 56, 137, 97 and 80002, so it is a fee-market chain, yet with
every node call succeeding and tier fast `SuggestGasParams` returns neither a
`GasTipCap` (the claim's value is `2000000000 * 15 / 10`) nor a `GasFeeCap`
(the claim's value is `(25000000000 + 3000000000) * 15 / 10`): the lookup
through `chainID.Int64()` sends the call down the legacy branch. -/
theorem SuggestGasParams_no_caps_on_wrapped_chain_id :
    (18446744073709551672 : Int) ≠ 56 ∧ (18446744073709551672 : Int) ≠ 137
      ∧ (18446744073709551672 : Int) ≠ 97 ∧ (18446744073709551672 : Int) ≠ 80002
      ∧ legacyChains (bigInt64 18446744073709551672) = true
      ∧ (SuggestGasParams (healthyNode 18446744073709551672) Fast).2
        = .ok { GasLimit := 25200, GasPrice := some 46000000000, GasTipCap := none,
                GasFeeCap := none, IsLegacy := true }
      ∧ (2000000000 : Int) * 15 / 10 = 3000000000
      ∧ ((25000000000 : Int) + 3000000000) * 15 / 10 = 42000000000 := by
  decide

/-- On a chain the code treats as fee-market, for every suggested tip,
suggested price, header outcome and speed tier, the returned parameters have
`GasTipCap = suggestedTip * m / 10`,
`GasFeeCap = max GasTipCap ((baseFee + GasTipCap) * m / 10)` with `baseFee` the
header's base fee or else the suggested price, and `GasFeeCap ≥ GasTipCap`. -/
theorem SuggestGasParams_feeCap_ge_tipCap (node : GasNode) (speed : String) (g : Nat)
    (c tipS priceS : Int)
    (hg : node.EstimateGas = some g) (hc : node.ChainID = some c)
    (ht : node.SuggestGasTipCap = some tipS) (hp : node.SuggestGasPrice = some priceS)
    (hleg : legacyChains (bigInt64 c) = false) :
    ∃ params tip feeCap,
      (SuggestGasParams node speed).2 = .ok params
        ∧ params.IsLegacy = false
        ∧ params.GasTipCap = some tip ∧ params.GasFeeCap = some feeCap
        ∧ tip = tipS * speedMultiplier speed / 10
        ∧ feeCap = max tip
            (((node.HeaderByNumber.join).getD priceS + tip) * speedMultiplier speed / 10)
        ∧ feeCap ≥ tip :=
  ⟨_, _, _, SuggestGasParams_feeMarket node speed g c tipS priceS hg hc ht hp hleg,
    rfl, rfl, rfl, rfl, rfl, le_max_left _ _⟩

/-- For a chain identifier that fits in an `int64` and is none of 56, 137, 97
and 80002, the returned parameters are fee-market parameters with
`GasFeeCap ≥ GasTipCap`. -/
theorem SuggestGasParams_feeCap_ge_tipCap_of_fits (node : GasNode) (speed : String) (g : Nat)
    (c tipS priceS : Int)
    (hg : node.EstimateGas = some g) (hc : node.ChainID = some c)
    (ht : node.SuggestGasTipCap = some tipS) (hp : node.SuggestGasPrice = some priceS)
    (hlo : -9223372036854775808 ≤ c) (hhi : c < 9223372036854775808)
    (hnot : ¬ (c = 56 ∨ c = 137 ∨ c = 97 ∨ c = 80002)) :
    ∃ params tip feeCap,
      (SuggestGasParams node speed).2 = .ok params
        ∧ params.IsLegacy = false
        ∧ params.GasTipCap = some tip ∧ params.GasFeeCap = some feeCap
        ∧ feeCap ≥ tip := by
  have hleg : legacyChains (bigInt64 c) = false := by
    cases hb : legacyChains (bigInt64 c) with
    | false => rfl
    | true => exact absurd ((legacyChains_of_fits c hlo hhi).1 hb) hnot
  obtain ⟨params, tip, feeCap, h1, h2, h3, h4, _, _, h7⟩ :=
    SuggestGasParams_feeCap_ge_tipCap node speed g c tipS priceS hg hc ht hp hleg
  exact ⟨params, tip, feeCap, h1, h2, h3, h4, h7⟩

/-- The fee-market branch at a concrete input where the clamp acts: chain 1,
failed header call,
suggested tip 100, suggested price -1000, tier slow: the computed cap -900 is
raised to the tip 100. -/
theorem SuggestGasParams_feeCap_ge_tipCap_witness :
    (SuggestGasParams ⟨some 21000, some 1, some 100, some (-1000), none⟩ Slow).2
        = .ok { GasLimit := 25200, GasPrice := none, GasTipCap := some 100,
                GasFeeCap := some 100, IsLegacy := false }
      ∧ ∃ params tip feeCap,
        (SuggestGasParams ⟨some 21000, some 1, some 100, some (-1000), none⟩ Slow).2
            = .ok params
          ∧ params.IsLegacy = false
          ∧ params.GasTipCap = some tip ∧ params.GasFeeCap = some feeCap
          ∧ tip = 100 * speedMultiplier Slow / 10
          ∧ feeCap = max tip
              ((((none : Option (Option Int)).join).getD (-1000) + tip)
                * speedMultiplier Slow / 10)
          ∧ feeCap ≥ tip :=
  ⟨by decide,
    SuggestGasParams_feeCap_ge_tipCap ⟨some 21000, some 1, some 100, some (-1000), none⟩ Slow
      21000 1 100 (-1000) rfl rfl rfl rfl (by decide)⟩

/-- C13: on a chain the code treats as legacy, for every suggested price `p`
and every tier string, `GasPrice = floor (p * m / 10) + 1000000000` with `m`
10 for slow, 15 for fast and 11 for normal and for every other string; the call
returns no error, and a string outside the three tiers gives the result of
normal. -/
theorem SuggestGasParams_legacy_price (node : GasNode) (speed : String) (g : Nat)
    (c tipS p : Int)
    (hg : node.EstimateGas = some g) (hc : node.ChainID = some c)
    (ht : node.SuggestGasTipCap = some tipS) (hp : node.SuggestGasPrice = some p)
    (hleg : legacyChains (bigInt64 c) = true) :
    (SuggestGasParams node speed).2
        = .ok { GasLimit := addMargin g
                GasPrice := some
                  (⌊((p * (if speed = "slow" then 10 else if speed = "fast" then 15 else 11)
                      : Int) : ℚ) / 10⌋ + 1000000000)
                GasTipCap := none, GasFeeCap := none, IsLegacy := true }
      ∧ (speed ≠ "slow" → speed ≠ "normal" → speed ≠ "fast" →
          SuggestGasParams node speed = SuggestGasParams node "normal") := by
  have hm : speedMultiplier speed
      = (if speed = "slow" then 10 else if speed = "fast" then 15 else 11) := by
    unfold speedMultiplier Slow Normal Fast
    by_cases h1 : speed = "slow"
    · rw [if_pos h1, if_pos h1]
    · rw [if_neg h1, if_neg h1]
      by_cases h2 : speed = "normal"
      · have h3 : speed ≠ "fast" := by
          rw [h2]
          decide
        rw [if_pos h2, if_neg h3]
      · rw [if_neg h2]
  constructor
  · rw [SuggestGasParams_legacy node speed g c tipS p hg hc ht hp hleg, hm]
    have hfloor := Rat.floor_intCast_div_natCast
      (p * (if speed = "slow" then 10 else if speed = "fast" then 15 else 11)) 10
    simp only [Nat.cast_ofNat] at hfloor
    rw [hfloor]
  · intro h1 h2 h3
    have hsame : speedMultiplier speed = speedMultiplier "normal" := by
      unfold speedMultiplier Slow Normal Fast
      rw [if_neg h1, if_neg h2, if_neg h3]
      decide
    simp only [SuggestGasParams, hsame]

/-- C13 at a concrete input: chain 56, suggested price 30 gwei, the tier string
"turbo": the price is 30 gwei * 11 / 10 + 1 gwei = 34 gwei. -/
theorem SuggestGasParams_legacy_price_witness :
    (SuggestGasParams (healthyNode 56) "turbo").2
        = .ok { GasLimit := 25200, GasPrice := some 34000000000, GasTipCap := none,
                GasFeeCap := none, IsLegacy := true }
      ∧ ((SuggestGasParams (healthyNode 56) "turbo").2
          = .ok { GasLimit := addMargin 21000
                  GasPrice := some
                    (⌊((30000000000 * (if "turbo" = "slow" then 10
                        else if "turbo" = "fast" then 15 else 11) : Int) : ℚ) / 10⌋
                      + 1000000000)
                  GasTipCap := none, GasFeeCap := none, IsLegacy := true }
        ∧ ("turbo" ≠ "slow" → "turbo" ≠ "normal" → "turbo" ≠ "fast" →
            SuggestGasParams (healthyNode 56) "turbo"
              = SuggestGasParams (healthyNode 56) "normal")) :=
  ⟨by decide,
    SuggestGasParams_legacy_price (healthyNode 56) "turbo" 21000 56 2000000000 30000000000
      rfl rfl rfl rfl (by decide)⟩

/-- C14, as stated, fails: when only the latest-header call fails (chain 1,
every other call succeeding), `SuggestGasParams` returns parameters, not an
error; the suggested price stands in for the base fee. -/
theorem SuggestGasParams_error_on_any_failure_fails :
    ¬ ∀ (node : GasNode) (speed : String),
        (node.EstimateGas = none ∨ node.ChainID = none ∨ node.SuggestGasTipCap = none
          ∨ node.SuggestGasPrice = none ∨ node.HeaderByNumber = none) →
        ∃ e, (SuggestGasParams node speed).2 = .error e := by
  intro h
  obtain ⟨e, he⟩ := h ⟨some 21000, some 1, some 2000000000, some 30000000000, none⟩ Normal
    (Or.inr (Or.inr (Or.inr (Or.inr rfl))))
  have hok : (SuggestGasParams ⟨some 21000, some 1, some 2000000000, some 30000000000, none⟩
      Normal).2 = .ok ⟨25200, none, some 2200000000, some 35420000000, false⟩ := by
    decide
  rw [hok] at he
  cases he

/-- C14, amended: `SuggestGasParams` returns an error, and so no parameters, if
the gas simulation, the chain-identifier call, the tip suggestion or the price
suggestion fails, and only then; a failing latest-header call is not an error:
when those four calls succeed and `HeaderByNumber` fails, parameters are
returned. -/
theorem SuggestGasParams_error_on_failure (node : GasNode) (speed : String) :
    ((node.EstimateGas = none ∨ node.ChainID = none ∨ node.SuggestGasTipCap = none
          ∨ node.SuggestGasPrice = none) →
        ∃ e, (SuggestGasParams node speed).2 = .error e)
      ∧ ((∃ e, (SuggestGasParams node speed).2 = .error e) →
        (node.EstimateGas = none ∨ node.ChainID = none ∨ node.SuggestGasTipCap = none
          ∨ node.SuggestGasPrice = none))
      ∧ (node.HeaderByNumber = none → node.EstimateGas ≠ none → node.ChainID ≠ none →
          node.SuggestGasTipCap ≠ none → node.SuggestGasPrice ≠ none →
        ∃ params, (SuggestGasParams node speed).2 = .ok params) := by
  cases hg : node.EstimateGas with
  | none =>
    refine ⟨fun _ => ⟨.estimateGas, by simp [SuggestGasParams, hg]⟩, fun _ => Or.inl rfl, ?_⟩
    intro _ h
    exact absurd rfl h
  | some g =>
    cases hc : node.ChainID with
    | none =>
      refine ⟨fun _ => ⟨.chainID, by simp [SuggestGasParams, hg, hc]⟩,
        fun _ => Or.inr (Or.inl rfl), ?_⟩
      intro _ _ h
      exact absurd rfl h
    | some c =>
      cases ht : node.SuggestGasTipCap with
      | none =>
        refine ⟨fun _ => ⟨.suggestGasTipCap, by simp [SuggestGasParams, hg, hc, ht]⟩,
          fun _ => Or.inr (Or.inr (Or.inl rfl)), ?_⟩
        intro _ _ _ h
        exact absurd rfl h
      | some t =>
        cases hp : node.SuggestGasPrice with
        | none =>
          refine ⟨fun _ => ⟨.suggestGasPrice, by simp [SuggestGasParams, hg, hc, ht, hp]⟩,
            fun _ => Or.inr (Or.inr (Or.inr rfl)), ?_⟩
          intro _ _ _ _ h
          exact absurd rfl h
        | some q =>
          have hok : ∃ params, (SuggestGasParams node speed).2 = .ok params := by
            by_cases hleg : legacyChains (bigInt64 c) = true
            · exact ⟨_, SuggestGasParams_legacy node speed g c t q hg hc ht hp hleg⟩
            · exact ⟨_, SuggestGasParams_feeMarket node speed g c t q hg hc ht hp
                (by simpa using hleg)⟩
          refine ⟨fun hfail => ?_, fun herr => ?_, fun _ _ _ _ _ => hok⟩
          · simp at hfail
          · obtain ⟨params, hparams⟩ := hok
            obtain ⟨e, he⟩ := herr
            rw [hparams] at he
            cases he

/-- C14, amended, at a concrete input: on chain 1 with tier normal the header
call fails while the other four calls succeed, and parameters are returned with
the suggested price 30 gwei standing in for the base fee. -/
theorem SuggestGasParams_error_on_failure_witness :
    (SuggestGasParams ⟨some 21000, some 1, some 2000000000, some 30000000000, none⟩
        Normal).2 = .ok ⟨25200, none, some 2200000000, some 35420000000, false⟩
      ∧ ∃ params,
        (SuggestGasParams ⟨some 21000, some 1, some 2000000000, some 30000000000, none⟩
          Normal).2 = .ok params :=
  ⟨by decide,
    (SuggestGasParams_error_on_failure
      ⟨some 21000, some 1, some 2000000000, some 30000000000, none⟩ Normal).2.2
      rfl (by decide) (by decide) (by decide) (by decide)⟩

/-- C15 fails on the code: for the gas estimate 153722867280912931 the
`uint64` product `g * 120` wraps to 104 and the returned `GasLimit` is 1, where
the estimate plus 20% is 184467440737095517, a value that fits in a `uint64`;
the limit is far below the estimate itself. -/
theorem SuggestGasParams_margin_wraps :
    (153722867280912931 * 120) % U64 = 104
      ∧ (SuggestGasParams
          ⟨some 153722867280912931, some 1, some 2000000000, some 30000000000,
            some (some 25000000000)⟩ Normal).2
        = .ok ⟨1, none, some 2200000000, some 29920000000, false⟩
      ∧ 153722867280912931 * 120 / 100 = 184467440737095517
      ∧ 184467440737095517 < U64
      ∧ ¬ (153722867280912931 ≤ 1) := by
  decide

/-- A successful `SuggestGasParams` returns the gas estimate with the margin of
line 61 applied. -/
theorem SuggestGasParams_gasLimit (node : GasNode) (speed : String) (g : Nat)
    (params : GasParams) (hg : node.EstimateGas = some g)
    (hok : (SuggestGasParams node speed).2 = .ok params) :
    params.GasLimit = addMargin g := by
  cases hc : node.ChainID with
  | none => simp [SuggestGasParams, hg, hc] at hok
  | some c =>
    cases ht : node.SuggestGasTipCap with
    | none => simp [SuggestGasParams, hg, hc, ht] at hok
    | some t =>
      cases hp : node.SuggestGasPrice with
      | none => simp [SuggestGasParams, hg, hc, ht, hp] at hok
      | some q =>
        by_cases hleg : legacyChains (bigInt64 c) = true
        · rw [SuggestGasParams_legacy node speed g c t q hg hc ht hp hleg] at hok
          simp only [Except.ok.injEq] at hok
          rw [← hok]
        · rw [SuggestGasParams_feeMarket node speed g c t q hg hc ht hp
            (by simpa using hleg)] at hok
          simp only [Except.ok.injEq] at hok
          rw [← hok]

/-- While the product does not wrap, that is for every gas estimate `g` with
`g * 120 < 2 ^ 64`, the `GasLimit` a successful `SuggestGasParams` returns is
exactly `floor (g * 120 / 100)` and is never smaller than `g`. -/
theorem SuggestGasParams_margin_exact (node : GasNode) (speed : String) (g : Nat)
    (params : GasParams) (hfit : g * 120 < U64) (hg : node.EstimateGas = some g)
    (hok : (SuggestGasParams node speed).2 = .ok params) :
    params.GasLimit = g * 120 / 100 ∧ g ≤ params.GasLimit := by
  rw [SuggestGasParams_gasLimit node speed g params hg hok]
  unfold addMargin
  rw [Nat.mod_eq_of_lt hfit]
  exact ⟨rfl, by omega⟩

/-- The margin at a concrete input: the estimate 21000 gives the limit
25200. -/
theorem SuggestGasParams_margin_exact_witness :
    (SuggestGasParams (healthyNode 1) Normal).2
        = .ok { GasLimit := 25200, GasPrice := none, GasTipCap := some 2200000000,
                GasFeeCap := some 29920000000, IsLegacy := false }
      ∧ (25200 = 21000 * 120 / 100 ∧ 21000 ≤ 25200) :=
  ⟨by decide,
    SuggestGasParams_margin_exact (healthyNode 1) Normal 21000
      { GasLimit := 25200, GasPrice := none, GasTipCap := some 2200000000,
        GasFeeCap := some 29920000000, IsLegacy := false }
      (by decide) rfl (by decide)⟩

end Gas

/-! ## Transfer executor: properties of `Execute` -/

namespace Transfer

/-- None of the steps after the balance check returns the insufficient-balance
error. -/
theorem executeAfterBalance_not_insufficient (node : Node) (req : Request) (a b : Int) :
    (executeAfterBalance node req).2 ≠ .error (.insufficientBalance a b) := by
  intro h
  unfold executeAfterBalance at h
  cases hn : node.PendingNonceAt with
  | none => simp [hn] at h
  | some nonce =>
    rcases hg : Gas.SuggestGasParams node.gas req.Speed with ⟨calls, e | params⟩
    · simp [hn, hg] at h
    · cases hc : node.ChainID with
      | none => simp [hn, hg, hc] at h
      | some chainID =>
        cases hs : node.SignTx
            (Gas.CreateTransaction nonce req.To req.Amount req.Data params chainID) with
        | none => simp [hn, hg, hc, hs] at h
        | some hash =>
          by_cases hsend : node.SendTransaction = false
          · simp [hn, hg, hc, hs, hsend] at h
          · cases hr : node.TransactionReceipt with
            | none => simp [hn, hg, hc, hs, hsend, hr] at h
            | some receipt => simp [hn, hg, hc, hs, hsend, hr] at h

/-- C16: for a request whose key derives the claimed sender and a successful
balance read, `Execute` returns the insufficient-balance error exactly when
`balance < amount` (an equal balance passes); when it does, the only call made
is the balance read, so no nonce fetch, fee estimation, chain-id fetch, signing
or broadcast takes place, and the returned value is an error without a
`Result`. Otherwise the steps after the balance check run. -/
theorem Execute_balance_check (node : Node) (req : Request) (balance : Int)
    (hkey : req.derivedAddr = req.From) (hbal : node.BalanceAt = some balance) :
    ((Execute node req).2 = .error (.insufficientBalance req.Amount balance)
        ↔ balance < req.Amount)
      ∧ (balance < req.Amount → (Execute node req).1 = [Call.BalanceAt])
      ∧ (¬ balance < req.Amount →
          Execute node req
            = (Call.BalanceAt :: (executeAfterBalance node req).1,
                (executeAfterBalance node req).2)) := by
  have hlt : balance < req.Amount →
      Execute node req = ([Call.BalanceAt], .error (.insufficientBalance req.Amount balance)) := by
    intro h
    simp [Execute, hkey, hbal, h]
  have hge : ¬ balance < req.Amount →
      Execute node req
        = (Call.BalanceAt :: (executeAfterBalance node req).1,
            (executeAfterBalance node req).2) := by
    intro h
    simp [Execute, hkey, hbal, h]
  refine ⟨⟨?_, fun h => by rw [hlt h]⟩, fun h => by rw [hlt h], hge⟩
  intro herr
  by_contra hnot
  rw [hge hnot] at herr
  exact executeAfterBalance_not_insufficient node req _ _ herr

/-- C16 at the input of the scenario: balance 10, amount 15. -/
theorem Execute_balance_check_witness :
    Execute (nodeWithBalance 10) (requestOf 15)
        = ([Call.BalanceAt], .error (.insufficientBalance 15 10))
      ∧ (((Execute (nodeWithBalance 10) (requestOf 15)).2
            = .error (.insufficientBalance (requestOf 15).Amount 10)
          ↔ 10 < (requestOf 15).Amount)
        ∧ (10 < (requestOf 15).Amount →
            (Execute (nodeWithBalance 10) (requestOf 15)).1 = [Call.BalanceAt])
        ∧ (¬ 10 < (requestOf 15).Amount →
            Execute (nodeWithBalance 10) (requestOf 15)
              = (Call.BalanceAt
                  :: (executeAfterBalance (nodeWithBalance 10) (requestOf 15)).1,
                  (executeAfterBalance (nodeWithBalance 10) (requestOf 15)).2))) :=
  ⟨by decide, Execute_balance_check (nodeWithBalance 10) (requestOf 15) 10 rfl rfl⟩

end Transfer

/-! ## Compliance gate: the committed daily totals stay within the limit -/

namespace Risk

/-- The daily rule keeps every stored amount at or below a non-negative daily
limit. -/
theorem checkDaily_keeps_bound (c : Checker) (today : String) (fromAddr : Address)
    (amount D : Int) (hD : c.config.DailyLimit = some D) (h0 : 0 ≤ D)
    (hinv : ∀ a d, c.dailyAmounts a = some d → d.Amount ≤ D) :
    ∀ a d, (checkDaily c today fromAddr amount).1.dailyAmounts a = some d → d.Amount ≤ D := by
  intro a d
  unfold checkDaily
  simp only [hD]
  cases hE : c.dailyAmounts fromAddr with
  | none =>
    dsimp only
    split_ifs with hover
    · intro h
      by_cases ha : a = fromAddr
      · simp only [setKey, ha, if_true, Option.some.injEq] at h
        rw [← h]
        exact h0
      · simp only [setKey, ha, if_false] at h
        exact hinv a d h
    · intro h
      by_cases ha : a = fromAddr
      · simp only [setKey, ha, if_true, Option.some.injEq] at h
        rw [← h]
        exact not_lt.1 hover
      · simp only [setKey, ha, if_false] at h
        exact hinv a d h
  | some e =>
    by_cases hd : e.Date = today
    · simp only [hd, ne_eq, not_true_eq_false, if_false]
      split_ifs with hover
      · exact hinv a d
      · intro h
        by_cases ha : a = fromAddr
        · simp only [setKey, ha, if_true, Option.some.injEq] at h
          rw [← h]
          exact not_lt.1 hover
        · simp only [setKey, ha, if_false] at h
          exact hinv a d h
    · simp only [hd, ne_eq, not_false_eq_true, if_true]
      split_ifs with hover
      · intro h
        by_cases ha : a = fromAddr
        · simp only [setKey, ha, if_true, Option.some.injEq] at h
          rw [← h]
          exact h0
        · simp only [setKey, ha, if_false] at h
          exact hinv a d h
      · intro h
        by_cases ha : a = fromAddr
        · simp only [setKey, ha, if_true, Option.some.injEq] at h
          rw [← h]
          exact not_lt.1 hover
        · simp only [setKey, ha, if_false] at h
          exact hinv a d h

/-- The state after `Check` is the state before it or the state after the daily
rule. -/
theorem Check_state (c : Checker) (today : String) (fromAddr toAddr : Address) (amount : Int) :
    (Check c today fromAddr toAddr amount).1 = c
      ∨ (Check c today fromAddr toAddr amount).1 = (checkDaily c today fromAddr amount).1 := by
  unfold Check
  split_ifs
  · exact Or.inl rfl
  · exact Or.inl rfl
  · exact Or.inl rfl
  · exact Or.inl rfl
  · cases hS : c.config.SingleLimit with
    | none =>
      right
      dsimp only
      rcases checkDaily c today fromAddr amount with ⟨c1, _ | r⟩ <;> rfl
    | some single =>
      dsimp only
      split_ifs
      · exact Or.inl rfl
      · right
        rcases checkDaily c today fromAddr amount with ⟨c1, _ | r⟩ <;> rfl

/-- Every operation leaves the configuration alone. -/
theorem applyOp_config (c : Checker) (op : Op) : (applyOp c op).config = c.config := by
  cases op with
  | check today fromAddr toAddr amount =>
    rcases Check_state c today fromAddr toAddr amount with h | h
    · simp only [applyOp, h]
    · simp only [applyOp, h]
      exact (checkDaily_frame c today fromAddr amount).1
  | addToBlacklist addr => rfl
  | removeFromBlacklist addr => rfl
  | addToWhitelist addr => rfl
  | removeFromWhitelist addr => rfl

/-- Every operation keeps every stored amount at or below a non-negative daily
limit. -/
theorem applyOp_keeps_bound (c : Checker) (op : Op) (D : Int)
    (hD : c.config.DailyLimit = some D) (h0 : 0 ≤ D)
    (hinv : ∀ a d, c.dailyAmounts a = some d → d.Amount ≤ D) :
    ∀ a d, (applyOp c op).dailyAmounts a = some d → d.Amount ≤ D := by
  cases op with
  | check today fromAddr toAddr amount =>
    rcases Check_state c today fromAddr toAddr amount with h | h
    · simp only [applyOp, h]
      exact hinv
    · simp only [applyOp, h]
      exact checkDaily_keeps_bound c today fromAddr amount D hD h0 hinv
  | addToBlacklist addr => exact hinv
  | removeFromBlacklist addr => exact hinv
  | addToWhitelist addr => exact hinv
  | removeFromWhitelist addr => exact hinv

/-- A sequence of operations keeps every stored amount at or below a
non-negative daily limit. -/
theorem runOps_keeps_bound (ops : List Op) :
    ∀ (c : Checker) (D : Int), c.config.DailyLimit = some D → 0 ≤ D →
      (∀ a d, c.dailyAmounts a = some d → d.Amount ≤ D) →
      ∀ a d, (runOps c ops).dailyAmounts a = some d → d.Amount ≤ D := by
  induction ops with
  | nil =>
    intro c D _ _ hinv
    exact hinv
  | cons op rest ih =>
    intro c D hD h0 hinv
    exact ih (applyOp c op) D (by rw [applyOp_config]; exact hD) h0
      (applyOp_keeps_bound c op D hD h0 hinv)

/-- C17: with a non-negative daily limit `D` configured, in every state reached
from `New` by any sequence of `Check` calls (any senders, receivers, days and
amounts, negative ones included) and blacklist or whitelist mutations, every
stored per-address daily amount is at most `D`. -/
theorem New_runOps_daily_total_le_limit (HexToAddress : String → Address) (cfg : Config)
    (D : Int) (ops : List Op) (hE : cfg.Enabled = true) (hD : cfg.DailyLimit = some D)
    (h0 : 0 ≤ D) :
    ∀ a d, (runOps (New HexToAddress cfg) ops).dailyAmounts a = some d → d.Amount ≤ D := by
  have _ := hE
  refine runOps_keeps_bound ops (New HexToAddress cfg) D hD h0 ?_
  intro a d h
  simp [New] at h

/-- C17 at a concrete run: daily limit 150, sender 1 spends 100, is refused 80,
gets back 30 with a negative amount and spends 80; the stored total is 150. -/
theorem New_runOps_daily_total_le_limit_witness :
    (runOps (New (fun _ => 0) (limitsConfig (some 200) (some 150) false))
        [.check "2024-01-02" 1 2 100, .check "2024-01-02" 1 2 80, .addToBlacklist 9,
          .check "2024-01-02" 1 2 (-30), .check "2024-01-02" 1 2 80]).dailyAmounts 1
        = some ⟨"2024-01-02", 150⟩
      ∧ ∀ a d,
        (runOps (New (fun _ => 0) (limitsConfig (some 200) (some 150) false))
          [.check "2024-01-02" 1 2 100, .check "2024-01-02" 1 2 80, .addToBlacklist 9,
            .check "2024-01-02" 1 2 (-30), .check "2024-01-02" 1 2 80]).dailyAmounts a
          = some d → d.Amount ≤ 150 :=
  ⟨by decide,
    New_runOps_daily_total_le_limit (fun _ => 0) (limitsConfig (some 200) (some 150) false) 150
      [.check "2024-01-02" 1 2 100, .check "2024-01-02" 1 2 80, .addToBlacklist 9,
        .check "2024-01-02" 1 2 (-30), .check "2024-01-02" 1 2 80] rfl rfl (by decide)⟩

end Risk

end Wallet
